import Mathlib

/-!
Verification of the statistical drift-detection engine of
DataSemanticGuard (`.github/actions/data-semantic-guard/detector.js`).

JavaScript numbers are modelled as exact rationals (`ℚ`); the floating
point rounding of the source is idealized uniformly.  The class
`SemanticCorruptionDetector` holds a comparison-type label and mutable
`anomalies` / `confidence` fields; it is embedded as explicit state
passing over `DetectorState`.  Each sub-detector pushes at most one
string onto `this.anomalies` (each firing branch performs exactly one
push directly before its `return`), which is modelled by the
`anomaly : Option String` field of `SubResult`.
-/

/-- Fields of the record computed by `calculateStats`, except `std_dev`.
The source stores `std_dev = Math.sqrt(variance)`; the square root of a
rational is irrational in general, so the executable embedding keeps
`variance` (which determines `std_dev` as its nonnegative square root)
and omits the rounded float field.  No claim about `calculateStats`
mentions `std_dev`. -/
structure Stats where
  mean : ℚ
  median : ℚ
  min : ℚ
  max : ℚ
  p25 : ℚ
  p75 : ℚ
  count : ℕ
  variance : ℚ
deriving DecidableEq, Repr

/-- A statistical summary as consumed by the drift detectors: the
`calculateStats` fields together with `std_dev`.  The detectors accept
arbitrary summaries, so `std_dev` is simply a further rational field. -/
structure StatisticalSummary extends Stats where
  std_dev : ℚ
deriving DecidableEq, Repr

/-- `calculateStats(data)`: throws on empty input (modelled by
`Except.error` carrying the message of the thrown `Error`), otherwise
sorts a copy ascending and computes mean, median, population variance,
min, max and the floor-index percentiles.  JS `Math.floor(n * 0.25)` and
`Math.floor(n * 0.75)` are the integer divisions `n / 4` and
`3 * n / 4` (the products `n·0.25`, `n·0.75` are exact in binary
floating point for any list length arising in practice). -/
def calculateStats (data : List ℚ) : Except String Stats :=
  if data.length = 0 then
    Except.error "Cannot calculate statistics on empty data"
  else
    let sorted := List.insertionSort (· ≤ ·) data
    let n := data.length
    let mean := data.foldl (fun sum val => sum + val) 0 / (n : ℚ)
    let median :=
      if n % 2 = 0 then (sorted.getD (n / 2 - 1) 0 + sorted.getD (n / 2) 0) / 2
      else sorted.getD (n / 2) 0
    let variance := data.foldl (fun sum val => sum + (val - mean) ^ 2) 0 / (n : ℚ)
    Except.ok
      { mean := mean
        median := median
        min := sorted.getD 0 0
        max := sorted.getD (n - 1) 0
        p25 := sorted.getD (n / 4) 0
        p75 := sorted.getD (3 * n / 4) 0
        count := n
        variance := variance }

/-- The `{ detected, confidence }` record returned by one sub-detector,
together with the anomaly string the sub-detector pushed onto the
instance's anomaly list during the call (`none` when it abstained). -/
structure SubResult where
  detected : Bool
  confidence : ℚ
  anomaly : Option String
deriving DecidableEq, Repr

/-- The `{ detected: false, confidence: 0 }` value returned by every
abstaining branch; no anomaly is pushed on those paths. -/
def notDetected : SubResult := { detected := false, confidence := 0, anomaly := none }

/-- Rendering of a numeric value inside an anomaly string.  The source
formats with `toFixed(1)`, `toFixed(2)` or `toFixed(4)`; the decimal
rounding is abstracted to the exact rational rendering, which keeps the
strings deterministic functions of the inputs. -/
def fmt (q : ℚ) : String := toString q

/-- The magnitude-shift firing condition `Math.abs(logRatio) > 0.5`
where `logRatio = Math.log10(Math.abs(ratio))`.  For a nonzero real
ratio, `|log10 |ratio|| > 0.5 ↔ ratio^2 > 10 ∨ ratio^2 < 1/10`
(see `logShiftCond_iff_logb` below), and JS `Math.log10(0) = -∞` makes
the condition true at `ratio = 0`, which the disjunct `0 < 1/10` also
covers; the decidable rational form is therefore exactly the source
condition. -/
def logShiftCond (ratio : ℚ) : Bool := decide (ratio ^ 2 > 10 ∨ ratio ^ 2 < 1 / 10)

/-- `detectMagnitudeShift(baseline, current)`. -/
def detectMagnitudeShift (baseline current : StatisticalSummary) : SubResult :=
  let baselineMean := baseline.mean
  let currentMean := current.mean
  if baselineMean = 0 then notDetected
  else
    let ratio := currentMean / baselineMean
    if logShiftCond ratio then
      let percentChange := (currentMean - baselineMean) / baselineMean * 100
      if ratio < 1 / 10 then
        { detected := true, confidence := 95,
          anomaly := some ("Severe magnitude drop: " ++ fmt percentChange ++
            "% decrease (ratio: " ++ fmt ratio ++ ")") }
      else if ratio > 10 then
        { detected := true, confidence := 95,
          anomaly := some ("Severe magnitude increase: " ++ fmt percentChange ++
            "% increase (ratio: " ++ fmt ratio ++ ")") }
      else if ratio < 1 / 2 ∨ ratio > 2 then
        { detected := true, confidence := 70,
          anomaly := some ("Significant magnitude shift: " ++ fmt percentChange ++ "% change") }
      else notDetected
    else notDetected

/-- One entry of `this.conversionHeuristics`. -/
structure ConversionHeuristic where
  ratio : Option ℚ
  offset : Option ℚ
  tolerance : ℚ
  description : String
deriving DecidableEq, Repr

/-- The static heuristic table, keyed by the comparison-type label;
`none` models an absent key. -/
def conversionHeuristics (comparisonType : String) : Option ConversionHeuristic :=
  if comparisonType = "currency_usd_to_inr" then
    some { ratio := some 83.0, offset := none, tolerance := 0.15,
           description := "USD to INR conversion" }
  else if comparisonType = "currency_usd_to_jpy" then
    some { ratio := some 150.0, offset := none, tolerance := 0.15,
           description := "USD to JPY conversion" }
  else if comparisonType = "temperature_c_to_f" then
    some { ratio := some 1.8, offset := some 32, tolerance := 0.1,
           description := "Celsius to Fahrenheit" }
  else if comparisonType = "length_m_to_ft" then
    some { ratio := some 3.28084, offset := none, tolerance := 0.05,
           description := "Meters to Feet" }
  else if comparisonType = "custom_numeric_distribution" then
    some { ratio := none, offset := none, tolerance := 0.2,
           description := "Generic numeric distribution" }
  else none

/-- `detectUnitConversion(baseline, current)` for an instance whose
comparison type is `comparisonType`.  The source guard
`!heuristic || !heuristic.ratio` is truthiness: it abstains when the key
is unknown, when the entry has no `ratio` field, and also when the ratio
is `0` (never the case in the table, but modelled faithfully).  When
`current.mean = 0` the JS inverse ratio `1/ratio` is `±Infinity` and its
relative error never falls below a table tolerance (all are `< 1`); the
rational model gives `1/0 = 0`, whose relative error is exactly `1`,
likewise never below a table tolerance. -/
def detectUnitConversion (comparisonType : String)
    (baseline current : StatisticalSummary) : SubResult :=
  match conversionHeuristics comparisonType with
  | none => notDetected
  | some heuristic =>
    match heuristic.ratio with
    | none => notDetected
    | some expectedRatio =>
      if expectedRatio = 0 then notDetected
      else if baseline.mean = 0 then notDetected
      else
        let ratio := current.mean / baseline.mean
        let tolerance := heuristic.tolerance
        let ratioError := |ratio - expectedRatio| / expectedRatio
        if ratioError < tolerance then
          { detected := true, confidence := 90,
            anomaly := some ("Possible " ++ heuristic.description ++ ": ratio " ++
              fmt ratio ++ " matches expected " ++ fmt expectedRatio) }
        else
          let inverseRatio := 1 / ratio
          let inverseError := |inverseRatio - expectedRatio| / expectedRatio
          if inverseError < tolerance then
            { detected := true, confidence := 90,
              anomaly := some ("Possible inverse " ++ heuristic.description ++ ": ratio " ++
                fmt inverseRatio ++ " matches expected " ++ fmt expectedRatio) }
          else notDetected

/-- The second half of `detectDistributionShift`: the median/mean skew
comparison, reached only when the coefficient-of-variation branch did
not return. -/
def medianShiftCheck (baseline current : StatisticalSummary) : SubResult :=
  let baselineMedianMeanRatio := baseline.median / baseline.mean
  let currentMedianMeanRatio := current.median / current.mean
  let medianMeanShift := |currentMedianMeanRatio - baselineMedianMeanRatio|
  if medianMeanShift > 0.2 then
    { detected := true, confidence := 55,
      anomaly := some ("Distribution skew changed: median/mean ratio shifted by " ++
        fmt (medianMeanShift * 100) ++ "%") }
  else notDetected

/-- `detectDistributionShift(baseline, current)`.  The source computes
`baselineCV = std_dev/mean`, `currentCV` likewise, and rejects
non-finite values with `isFinite`; over (finite) rational field values a
CV is non-finite exactly when the corresponding mean is `0` (`±∞` for a
nonzero std_dev, `NaN` for `0/0`).  When `baselineCV = 0` (both means
nonzero, `baseline.std_dev = 0`), JS `cvRatio = currentCV / ±0` is `NaN`
if `currentCV = 0` (both comparisons false, so control falls through to
the skew check) and otherwise `±∞`, whose sign is
`sign(currentCV)·sign(baseline.mean)` (the zero `baselineCV = 0/mean`
carries the sign of the mean): `+∞` fires the `> 2.0` branch
(an "increase"), `-∞` the `< 0.5` branch (a "decrease"), and
`|cvRatio - 1| * 100` renders as `Infinity`. -/
def detectDistributionShift (baseline current : StatisticalSummary) : SubResult :=
  if baseline.mean = 0 ∨ current.mean = 0 then notDetected
  else
    let baselineCV := baseline.std_dev / baseline.mean
    let currentCV := current.std_dev / current.mean
    if baselineCV = 0 then
      if currentCV = 0 then medianShiftCheck baseline current
      else
        { detected := true, confidence := 60,
          anomaly := some ("Distribution variability " ++
            (if currentCV * baseline.mean > 0 then "increase" else "decrease") ++
            ": coefficient of variation changed by Infinity%") }
    else
      let cvRatio := currentCV / baselineCV
      if cvRatio > 2.0 ∨ cvRatio < 0.5 then
        { detected := true, confidence := 60,
          anomaly := some ("Distribution variability " ++
            (if cvRatio > 1 then "increase" else "decrease") ++
            ": coefficient of variation changed by " ++ fmt (|cvRatio - 1| * 100) ++ "%") }
      else medianShiftCheck baseline current

/-- `detectRangeAnomaly(baseline, current)`. -/
def detectRangeAnomaly (baseline current : StatisticalSummary) : SubResult :=
  let baselineRange := baseline.max - baseline.min
  let currentRange := current.max - current.min
  if baselineRange = 0 then notDetected
  else
    let rangeRatio := currentRange / baselineRange
    if rangeRatio > 5.0 then
      { detected := true, confidence := 65,
        anomaly := some ("Data range expanded significantly: " ++ fmt rangeRatio ++
          "x larger than baseline") }
    else if rangeRatio < 0.2 then
      { detected := true, confidence := 65,
        anomaly := some ("Data range contracted significantly: " ++ fmt (rangeRatio * 100) ++
          "% of baseline range") }
    else notDetected

/-- The mutable state of a `SemanticCorruptionDetector` instance:
the comparison-type label fixed at construction, plus the `anomalies`
and `confidence` fields mutated by `analyze`. -/
structure DetectorState where
  comparisonType : String
  anomalies : List String
  confidence : ℚ
deriving DecidableEq, Repr

/-- The object returned by `analyze`. -/
structure DetectionResult where
  confidence : ℚ
  anomalies : List String
  detected : Bool
deriving DecidableEq, Repr

/-- `Math.max(...scores)` for the nonempty score list of the aggregation
step (the source only evaluates it when at least two scores are
present). -/
def listMax : List ℚ → ℚ
  | [] => 0
  | x :: xs => xs.foldl max x

/-- `analyze(baselineStats, currentStats)`: resets `this.anomalies` to
`[]` and runs the four sub-detectors in their fixed order, collecting
the confidence of each one that fired and the anomaly strings pushed
during the calls (in the same order), then aggregates.  Returns the
post-call instance state together with the result object; the source
also resets `this.confidence` implicitly by overwriting it in every
branch of the aggregation. -/
def analyze (state : DetectorState)
    (baselineStats currentStats : StatisticalSummary) : DetectorState × DetectionResult :=
  let magnitudeResult := detectMagnitudeShift baselineStats currentStats
  let conversionResult := detectUnitConversion state.comparisonType baselineStats currentStats
  let distributionResult := detectDistributionShift baselineStats currentStats
  let rangeResult := detectRangeAnomaly baselineStats currentStats
  let anomalies : List String :=
    [] ++ magnitudeResult.anomaly.toList ++ conversionResult.anomaly.toList ++
      distributionResult.anomaly.toList ++ rangeResult.anomaly.toList
  let confidenceScores : List ℚ :=
    (if magnitudeResult.detected then [magnitudeResult.confidence] else []) ++
    (if conversionResult.detected then [conversionResult.confidence] else []) ++
    (if distributionResult.detected then [distributionResult.confidence] else []) ++
    (if rangeResult.detected then [rangeResult.confidence] else [])
  let confidence : ℚ :=
    if confidenceScores.length = 0 then 0
    else if confidenceScores.length = 1 then confidenceScores.getD 0 0
    else
      let maxConfidence := listMax confidenceScores
      let boost := min (((confidenceScores.length : ℚ) - 1) * 5) 15
      min (maxConfidence + boost) 100
  ({ state with anomalies := anomalies, confidence := confidence },
   { confidence := confidence,
     anomalies := anomalies,
     detected := decide (0 < anomalies.length) })

/-- `generateDiagnostics()`, a pure function of the instance state left
by the last `analyze` call. -/
def generateDiagnostics (state : DetectorState) : String :=
  let heuristic := conversionHeuristics state.comparisonType
  let headline : List String :=
    [if state.confidence ≥ 90 then "🚨 HIGH CONFIDENCE: Silent data corruption detected"
     else if state.confidence ≥ 70 then "⚠️  MEDIUM CONFIDENCE: Suspicious data patterns detected"
     else if state.confidence ≥ 50 then "ℹ️  LOW CONFIDENCE: Minor anomalies detected"
     else "✅ No significant semantic drift detected"]
  let typeLine : List String :=
    match heuristic with
    | some h => ["\nAnalysis type: " ++ h.description]
    | none => []
  let anomalyLines : List String :=
    if 0 < state.anomalies.length then
      ["\nDetected anomalies:"] ++
      (state.anomalies.enum.map fun p => "  " ++ toString (p.1 + 1) ++ ". " ++ p.2) ++
      ["\nCommon causes:",
       "  - Unit conversion (currency, temperature, length)",
       "  - Locale/region change in data source",
       "  - Schema migration without data transformation",
       "  - Upstream API changes",
       "  - Data aggregation level changes"]
    else []
  String.intercalate "\n" (headline ++ typeLine ++ anomalyLines)

deriving instance DecidableEq for Except

/-- A degenerate summary with every statistic equal to `x` and zero
spread, used to instantiate witnesses at concrete inputs. -/
def constSummary (x : ℚ) : StatisticalSummary :=
  { mean := x, median := x, min := x, max := x, p25 := x, p75 := x,
    count := 1, variance := 0, std_dev := 0 }

/-- The list of confidence values of the sub-detectors that fired, in
the fixed execution order (magnitude, unit-conversion, distribution,
range): exactly the `confidenceScores` array `analyze` builds. -/
def firedConfidences (comparisonType : String) (b c : StatisticalSummary) : List ℚ :=
  (if (detectMagnitudeShift b c).detected then [(detectMagnitudeShift b c).confidence]
   else []) ++
  (if (detectUnitConversion comparisonType b c).detected then
    [(detectUnitConversion comparisonType b c).confidence]
   else []) ++
  (if (detectDistributionShift b c).detected then [(detectDistributionShift b c).confidence]
   else []) ++
  (if (detectRangeAnomaly b c).detected then [(detectRangeAnomaly b c).confidence] else [])

/-- The aggregation rule as the specification states it: `0` for no
signal, the single value for one signal, and
`min(max(S) + min((|S| - 1)·5, 15), 100)` for two or more. -/
def specAggregate : List ℚ → ℚ
  | [] => 0
  | [x] => x
  | x :: y :: rest =>
    min (listMax (x :: y :: rest) + min ((((x :: y :: rest).length : ℚ) - 1) * 5) 15) 100

/-- The anomaly text `s` starts with `p` (so in particular contains
`p`), read at the character level. -/
def textStartsWith (p s : String) : Prop := p.data <+: s.data

instance (p s : String) : Decidable (textStartsWith p s) :=
  inferInstanceAs (Decidable (p.data <+: s.data))

/-- A baseline with coefficient of variation 1 for the C4 witness. -/
def cvBaseline : StatisticalSummary :=
  { mean := 1, median := 1, min := 1, max := 1, p25 := 1, p75 := 1,
    count := 1, variance := 1, std_dev := 1 }

/-- A current summary with coefficient of variation 3 for the C4
witness. -/
def cvCurrent : StatisticalSummary :=
  { mean := 1, median := 1, min := 1, max := 1, p25 := 1, p75 := 1,
    count := 1, variance := 9, std_dev := 3 }


/-- The rational test `ratio^2 > 10 ∨ ratio^2 < 1/10` used in
`logShiftCond` coincides with the source condition
`Math.abs(Math.log10(Math.abs(ratio))) > 0.5` for every nonzero
ratio. -/
theorem logShiftCond_iff_logb (r : ℚ) (hr : r ≠ 0) :
    logShiftCond r = true ↔ 1 / 2 < |Real.logb 10 (abs (r : ℝ))| := by
  have hb : (1 : ℝ) < 10 := by norm_num
  have hrr : ((r : ℝ)) ≠ 0 := by exact_mod_cast hr
  have hx : (0 : ℝ) < (abs (r : ℝ)) := abs_pos.mpr hrr
  have hx2 : (0 : ℝ) < (abs (r : ℝ)) ^ 2 := by positivity
  have hlogsq : Real.logb 10 ((abs (r : ℝ)) ^ 2) = 2 * Real.logb 10 (abs (r : ℝ)) := by
    rw [Real.logb_pow]
    norm_num
  have c1 : ((10 : ℚ) < r ^ 2) ↔ ((10 : ℝ) < ((r : ℝ)) ^ 2) := by
    rw [show ((10 : ℝ)) = (((10 : ℚ) : ℝ)) by norm_num, ← Rat.cast_pow]
    exact Rat.cast_lt.symm
  have c2 : (r ^ 2 < (1 : ℚ) / 10) ↔ (((r : ℝ)) ^ 2 < 1 / 10) := by
    rw [show ((1 : ℝ) / 10) = ((((1 : ℚ) / 10) : ℚ) : ℝ) by norm_num, ← Rat.cast_pow]
    exact Rat.cast_lt.symm
  have k1 : ((10 : ℝ) < ((r : ℝ)) ^ 2) ↔ 1 / 2 < Real.logb 10 (abs (r : ℝ)) := by
    rw [← sq_abs, ← Real.logb_lt_logb_iff hb (by norm_num : (0 : ℝ) < 10) hx2,
      Real.logb_self_eq_one hb, hlogsq]
    constructor <;> intro h <;> linarith
  have k2 : (((r : ℝ)) ^ 2 < 1 / 10) ↔ Real.logb 10 (abs (r : ℝ)) < -(1 / 2) := by
    rw [← sq_abs, ← Real.logb_lt_logb_iff hb hx2 (by norm_num : (0 : ℝ) < 1 / 10), hlogsq]
    rw [show Real.logb 10 (1 / 10) = -1 by
      rw [one_div, Real.logb_inv, Real.logb_self_eq_one hb]]
    constructor <;> intro h <;> linarith
  rw [logShiftCond, decide_eq_true_eq]
  simp only [gt_iff_lt]
  rw [c1, c2, k1, k2, lt_abs]
  constructor
  · rintro (h | h)
    · exact Or.inl h
    · exact Or.inr (by linarith)
  · rintro (h | h)
    · exact Or.inl h
    · exact Or.inr (by linarith)

/-- Elements of a `≤`-sorted list are monotone in the index (read
through `getD` at in-range indices). -/
theorem sorted_getD_mono {L : List ℚ} (hL : L.Sorted (· ≤ ·)) {i j : ℕ}
    (hij : i ≤ j) (hj : j < L.length) : L.getD i 0 ≤ L.getD j 0 := by
  have hi : i < L.length := Nat.lt_of_le_of_lt hij hj
  rw [List.getD_eq_get L 0 hi, List.getD_eq_get L 0 hj]
  exact hL.rel_get_of_le (Fin.mk_le_mk.mpr hij)

/-- C8: for every observation sequence of at least 4 values, the summary
returned by `calculateStats` satisfies
`min ≤ p25 ≤ median ≤ p75 ≤ max`, where the quartiles sit at sorted
indices `⌊n·0.25⌋` and `⌊n·0.75⌋` and the median is the middle element
(odd `n`) or the average of the two middle elements (even `n`). -/
theorem calculateStats_quartile_order (data : List ℚ) (s : Stats)
    (h : calculateStats data = Except.ok s) (h4 : 4 ≤ data.length) :
    s.min ≤ s.p25 ∧ s.p25 ≤ s.median ∧ s.median ≤ s.p75 ∧ s.p75 ≤ s.max := by
  have hne : ¬ data.length = 0 := by omega
  simp only [calculateStats, if_neg hne, Except.ok.injEq] at h
  subst h
  set L := List.insertionSort (· ≤ ·) data with hLdef
  have hsorted : L.Sorted (· ≤ ·) := List.sorted_insertionSort _ data
  have hlen : L.length = data.length := (List.perm_insertionSort _ data).length_eq
  set n := data.length with hn
  have hmono : ∀ {i j : ℕ}, i ≤ j → j < n → L.getD i 0 ≤ L.getD j 0 := by
    intro i j hij hj
    exact sorted_getD_mono hsorted hij (by omega)
  dsimp only
  by_cases hpar : n % 2 = 0
  · rw [if_pos hpar]
    refine ⟨hmono (by omega) (by omega), ?_, ?_, hmono (by omega) (by omega)⟩
    · have h1 : L.getD (n / 4) 0 ≤ L.getD (n / 2 - 1) 0 := hmono (by omega) (by omega)
      have h2 : L.getD (n / 4) 0 ≤ L.getD (n / 2) 0 := hmono (by omega) (by omega)
      linarith
    · have h1 : L.getD (n / 2 - 1) 0 ≤ L.getD (3 * n / 4) 0 := hmono (by omega) (by omega)
      have h2 : L.getD (n / 2) 0 ≤ L.getD (3 * n / 4) 0 := hmono (by omega) (by omega)
      linarith
  · rw [if_neg hpar]
    exact ⟨hmono (by omega) (by omega), hmono (by omega) (by omega),
      hmono (by omega) (by omega), hmono (by omega) (by omega)⟩

/-- Witness for C8 at the concrete sequence `[3, 1, 4, 1, 5]`. -/
theorem calculateStats_quartile_order_witness :
    calculateStats [3, 1, 4, 1, 5] =
      Except.ok { mean := 14/5, median := 3, min := 1, max := 5, p25 := 1, p75 := 4,
                  count := 5, variance := 64/25 } ∧
    (4 ≤ ([3, 1, 4, 1, 5] : List ℚ).length) ∧
    ((1 : ℚ) ≤ 1 ∧ (1 : ℚ) ≤ 3 ∧ (3 : ℚ) ≤ 4 ∧ (4 : ℚ) ≤ 5) :=
  ⟨by norm_num [calculateStats, List.insertionSort, List.orderedInsert, List.getD, List.foldl],
   by decide,
   calculateStats_quartile_order [3, 1, 4, 1, 5]
     { mean := 14/5, median := 3, min := 1, max := 5, p25 := 1, p75 := 4,
       count := 5, variance := 64/25 }
     (by norm_num [calculateStats, List.insertionSort, List.orderedInsert, List.getD, List.foldl])
     (by decide)⟩

/-- C9: `calculateStats` fails (throws, modelled as `Except.error`)
exactly on the empty sequence, succeeds on every nonempty sequence, and
on `[1,2,3,4]` returns mean `5/2`, median `5/2`, population variance
`5/4`, min `1`, max `4`, `p25 = 2`, `p75 = 4`. -/
theorem calculateStats_error_iff_empty (data : List ℚ) :
    (data = [] → calculateStats data = Except.error "Cannot calculate statistics on empty data") ∧
    (data ≠ [] → ∃ s, calculateStats data = Except.ok s) ∧
    calculateStats [1, 2, 3, 4] =
      Except.ok { mean := 5/2, median := 5/2, min := 1, max := 4, p25 := 2, p75 := 4,
                  count := 4, variance := 5/4 } := by
  refine ⟨?_, ?_,
    by norm_num [calculateStats, List.insertionSort, List.orderedInsert, List.getD, List.foldl]⟩
  · rintro rfl
    rfl
  · intro hne
    have hlen : ¬ data.length = 0 := by
      simpa [List.length_eq_zero] using hne
    simp only [calculateStats, if_neg hlen]
    exact ⟨_, rfl⟩

/-- Witness for C9: the error on `[]` and success on `[1,2,3,4]`. -/
theorem calculateStats_error_iff_empty_witness :
    calculateStats ([] : List ℚ) = Except.error "Cannot calculate statistics on empty data" ∧
    ∃ s, calculateStats [1, 2, 3, 4] = Except.ok s :=
  ⟨(calculateStats_error_iff_empty []).1 rfl,
   (calculateStats_error_iff_empty [1, 2, 3, 4]).2.1 (by simp)⟩

/-- C5: `analyze` begins by resetting the instance's anomaly list (and
overwrites the confidence field in every aggregation branch before it is
read), so the call's behaviour and post-state are exactly those from the
freshly-constructed state with the same comparison type: no anomaly
string or confidence value of a previous call is observable during or
after the new call, and the state left behind holds precisely the new
result's anomalies and confidence. -/
theorem analyze_resets_state (st : DetectorState) (b c : StatisticalSummary) :
    analyze st b c =
      analyze { comparisonType := st.comparisonType, anomalies := [], confidence := 0 } b c ∧
    (analyze st b c).1.anomalies = (analyze st b c).2.anomalies ∧
    (analyze st b c).1.confidence = (analyze st b c).2.confidence := by
  cases st
  exact ⟨rfl, rfl, rfl⟩

/-- C6: calling `analyze` twice in sequence with identical inputs on the
same instance returns identical results (same confidence, same anomaly
strings in the same order, same flag), whatever state earlier calls
left. -/
theorem analyze_idempotent (st : DetectorState) (b c : StatisticalSummary) :
    (analyze (analyze st b c).1 b c).2 = (analyze st b c).2 ∧
    (analyze (analyze st b c).1 b c).2.confidence = (analyze st b c).2.confidence ∧
    (analyze (analyze st b c).1 b c).2.anomalies = (analyze st b c).2.anomalies ∧
    (analyze (analyze st b c).1 b c).2.detected = (analyze st b c).2.detected := by
  cases st
  exact ⟨rfl, rfl, rfl, rfl⟩

/-- The branching on `confidenceScores.length` inside `analyze` computes
the specification's aggregation rule. -/
theorem length_branches_eq_specAggregate (S : List ℚ) :
    (if S.length = 0 then (0 : ℚ)
     else if S.length = 1 then S.getD 0 0
     else min (listMax S + min (((S.length : ℚ) - 1) * 5) 15) 100) = specAggregate S := by
  match S with
  | [] => simp [specAggregate]
  | [x] => simp [specAggregate]
  | x :: y :: rest =>
    have h0 : ¬ (x :: y :: rest).length = 0 := by simp
    have h1 : ¬ (x :: y :: rest).length = 1 := by simp
    rw [if_neg h0, if_neg h1, specAggregate]

/-- C1: the confidence `analyze` returns equals the specified
aggregation of the fired sub-detector confidences, and the rule maps the
firing sets `{70, 90}` to `95` and `{60, 65, 70, 95}` to `100`. -/
theorem analyze_confidence_spec (st : DetectorState) (b c : StatisticalSummary) :
    (analyze st b c).2.confidence = specAggregate (firedConfidences st.comparisonType b c) ∧
    specAggregate [70, 90] = 95 ∧ specAggregate [60, 65, 70, 95] = 100 := by
  refine ⟨?_, by norm_num [specAggregate, listMax, List.foldl],
    by norm_num [specAggregate, listMax, List.foldl]⟩
  simp only [analyze, firedConfidences]
  exact length_branches_eq_specAggregate _

/-- C7: `analyze` and `generateDiagnostics` are total over all pairs of
summaries — in this embedding they are plain functions into
`DetectorState × DetectionResult` and `String`, with no error outcome to
propagate — and every degenerate guard makes the affected sub-detector
abstain with `{ detected: false, confidence: 0 }` instead of failing:
a zero baseline mean silences the magnitude and unit-conversion
detectors regardless of the current summary, a zero mean on either side
(a non-finite coefficient of variation) silences the distribution
detector, and a zero baseline range silences the range detector. -/
theorem degenerate_inputs_abstain (ct : String) (b c : StatisticalSummary) :
    (b.mean = 0 →
      detectMagnitudeShift b c = notDetected ∧ detectUnitConversion ct b c = notDetected) ∧
    (b.mean = 0 ∨ c.mean = 0 → detectDistributionShift b c = notDetected) ∧
    (b.max - b.min = 0 → detectRangeAnomaly b c = notDetected) := by
  refine ⟨fun h => ⟨by simp [detectMagnitudeShift, h], ?_⟩,
    fun h => by simp [detectDistributionShift, h],
    fun h => by simp [detectRangeAnomaly, h]⟩
  simp only [detectUnitConversion]
  rcases hc : conversionHeuristics ct with _ | heuristic
  · rfl
  · dsimp only
    rcases hr : heuristic.ratio with _ | expectedRatio
    · rfl
    · simp [h]

/-- Witness for C7: a zero-mean baseline silences the magnitude and
unit-conversion detectors against a nonzero current summary. -/
theorem degenerate_inputs_abstain_witness :
    detectMagnitudeShift (constSummary 0) (constSummary 5) = notDetected ∧
    detectUnitConversion "currency_usd_to_inr" (constSummary 0) (constSummary 5) = notDetected ∧
    detectDistributionShift (constSummary 0) (constSummary 5) = notDetected ∧
    detectRangeAnomaly (constSummary 0) (constSummary 5) = notDetected :=
  ⟨((degenerate_inputs_abstain "currency_usd_to_inr" (constSummary 0) (constSummary 5)).1 rfl).1,
   ((degenerate_inputs_abstain "currency_usd_to_inr" (constSummary 0) (constSummary 5)).1 rfl).2,
   (degenerate_inputs_abstain "currency_usd_to_inr" (constSummary 0) (constSummary 5)).2.1
     (Or.inl rfl),
   (degenerate_inputs_abstain "currency_usd_to_inr" (constSummary 0) (constSummary 5)).2.2
     (by norm_num [constSummary])⟩

/-- C2: the magnitude-shift detector abstains (no anomaly, no failure)
when `baseline.mean = 0`; otherwise, with
`ratio = current.mean / baseline.mean`, it fires only when
`|log10 |ratio|| > 0.5` (`logShiftCond`), and within that regime
`ratio < 0.1` fires with confidence 95 and an anomaly text starting
"Severe magnitude drop", otherwise `ratio > 10` fires with confidence 95
(severe increase), otherwise `ratio < 0.5 ∨ ratio > 2.0` fires with
confidence 70, and when `0.5 ≤ ratio ≤ 2.0` nothing is recorded even
under the log condition (a combination unsatisfiable over ℚ, kept as
written in the source). -/
theorem detectMagnitudeShift_spec (b c : StatisticalSummary) :
    (b.mean = 0 → detectMagnitudeShift b c = notDetected) ∧
    ((detectMagnitudeShift b c).detected = true →
      b.mean ≠ 0 ∧ logShiftCond (c.mean / b.mean) = true) ∧
    (b.mean ≠ 0 → logShiftCond (c.mean / b.mean) = true →
      (c.mean / b.mean < 1 / 10 →
        (detectMagnitudeShift b c).detected = true ∧
        (detectMagnitudeShift b c).confidence = 95 ∧
        ∃ s, (detectMagnitudeShift b c).anomaly = some s ∧
          textStartsWith "Severe magnitude drop" s) ∧
      (¬ c.mean / b.mean < 1 / 10 → c.mean / b.mean > 10 →
        (detectMagnitudeShift b c).detected = true ∧
        (detectMagnitudeShift b c).confidence = 95 ∧
        ∃ s, (detectMagnitudeShift b c).anomaly = some s ∧
          textStartsWith "Severe magnitude increase" s) ∧
      (¬ c.mean / b.mean < 1 / 10 → ¬ c.mean / b.mean > 10 →
        (c.mean / b.mean < 1 / 2 ∨ c.mean / b.mean > 2) →
        (detectMagnitudeShift b c).detected = true ∧
        (detectMagnitudeShift b c).confidence = 70) ∧
      (1 / 2 ≤ c.mean / b.mean → c.mean / b.mean ≤ 2 →
        detectMagnitudeShift b c = notDetected)) := by
  refine ⟨fun h => by simp [detectMagnitudeShift, h], ?_, ?_⟩
  · intro hdet
    by_cases h : b.mean = 0
    · have : detectMagnitudeShift b c = notDetected := by simp [detectMagnitudeShift, h]
      rw [this] at hdet
      exact absurd hdet (by simp [notDetected])
    refine ⟨h, ?_⟩
    by_cases hlog : logShiftCond (c.mean / b.mean) = true
    · exact hlog
    · have : detectMagnitudeShift b c = notDetected := by
        simp only [detectMagnitudeShift, if_neg h]
        rw [if_neg hlog]
      rw [this] at hdet
      exact absurd hdet (by simp [notDetected])
  · intro h hlog
    simp only [detectMagnitudeShift, if_neg h]
    rw [if_pos hlog]
    have base1 : "Severe magnitude drop".data <+: "Severe magnitude drop: ".data := by decide
    have base2 : "Severe magnitude increase".data <+: "Severe magnitude increase: ".data := by
      decide
    refine ⟨?_, ?_, ?_, ?_⟩
    · intro h1
      rw [if_pos h1]
      refine ⟨rfl, rfl, _, rfl, ?_⟩
      simp only [textStartsWith, String.data_append]
      exact ((base1.trans (List.prefix_append _ _)).trans
        (List.prefix_append _ _)).trans (List.prefix_append _ _)
    · intro h1 h2
      rw [if_neg h1, if_pos h2]
      refine ⟨rfl, rfl, _, rfl, ?_⟩
      simp only [textStartsWith, String.data_append]
      exact ((base2.trans (List.prefix_append _ _)).trans
        (List.prefix_append _ _)).trans (List.prefix_append _ _)
    · intro h1 h2 h3
      rw [if_neg h1, if_neg h2, if_pos h3]
      exact ⟨rfl, rfl⟩
    · intro hlo hhi
      have h1 : ¬ c.mean / b.mean < 1 / 10 := by intro hx; linarith
      have h2 : ¬ c.mean / b.mean > 10 := by intro hx; linarith
      have h3 : ¬ (c.mean / b.mean < 1 / 2 ∨ c.mean / b.mean > 2) := by
        rintro (hx | hx) <;> linarith
      rw [if_neg h1, if_neg h2, if_neg h3]

/-- Witness for C2 at `baseline.mean = 100`, `current.mean = 5`
(ratio `0.05 < 0.1`): fires with confidence 95 and a
"Severe magnitude drop" anomaly. -/
theorem detectMagnitudeShift_spec_witness :
    (detectMagnitudeShift (constSummary 100) (constSummary 5)).detected = true ∧
    (detectMagnitudeShift (constSummary 100) (constSummary 5)).confidence = 95 ∧
    ∃ s, (detectMagnitudeShift (constSummary 100) (constSummary 5)).anomaly = some s ∧
      textStartsWith "Severe magnitude drop" s :=
  (((detectMagnitudeShift_spec (constSummary 100) (constSummary 5)).2.2
      (by norm_num [constSummary])
      (by norm_num [logShiftCond, constSummary])).1
    (by norm_num [constSummary]))

/-- Every expected ratio present in the heuristic table is nonzero, so
the truthiness guard `!heuristic.ratio` never drops a present ratio. -/
theorem table_ratio_ne_zero {ct : String} {h : ConversionHeuristic} {er : ℚ}
    (hc : conversionHeuristics ct = some h) (hr : h.ratio = some er) : er ≠ 0 := by
  unfold conversionHeuristics at hc
  repeat' split at hc
  all_goals first
    | exact Option.noConfusion hc
    | (simp only [Option.some.injEq] at hc
       subst hc
       dsimp only at hr
       first
         | exact Option.noConfusion hr
         | (simp only [Option.some.injEq] at hr
            subst hr
            norm_num))

/-- C3: the unit-conversion detector abstains when the instance's
comparison type is not in the table, when its entry has no expected
ratio, or when `baseline.mean = 0`; otherwise with
`ratio = current.mean / baseline.mean` it fires with confidence 90 on a
forward match (`|ratio − expected|/expected < tolerance`), else fires
with confidence 90 on an inverse match (same test against `1/ratio`,
labelled "Possible inverse …"), else abstains — the inverse branch is
only reached when the forward test failed, so at most one of the two
fires per call. -/
theorem detectUnitConversion_spec (ct : String) (b c : StatisticalSummary) :
    (conversionHeuristics ct = none → detectUnitConversion ct b c = notDetected) ∧
    (∀ h, conversionHeuristics ct = some h → h.ratio = none →
      detectUnitConversion ct b c = notDetected) ∧
    (conversionHeuristics ct ≠ none → b.mean = 0 →
      detectUnitConversion ct b c = notDetected) ∧
    (∀ h er, conversionHeuristics ct = some h → h.ratio = some er → b.mean ≠ 0 →
      (|c.mean / b.mean - er| / er < h.tolerance →
        (detectUnitConversion ct b c).detected = true ∧
        (detectUnitConversion ct b c).confidence = 90 ∧
        ∃ s, (detectUnitConversion ct b c).anomaly = some s ∧
          textStartsWith "Possible " s) ∧
      (¬ |c.mean / b.mean - er| / er < h.tolerance →
        |1 / (c.mean / b.mean) - er| / er < h.tolerance →
        (detectUnitConversion ct b c).detected = true ∧
        (detectUnitConversion ct b c).confidence = 90 ∧
        ∃ s, (detectUnitConversion ct b c).anomaly = some s ∧
          textStartsWith "Possible inverse " s) ∧
      (¬ |c.mean / b.mean - er| / er < h.tolerance →
        ¬ |1 / (c.mean / b.mean) - er| / er < h.tolerance →
        detectUnitConversion ct b c = notDetected)) := by
  refine ⟨?_, ?_, ?_, ?_⟩
  · intro hc
    simp only [detectUnitConversion]
    rw [hc]
  · intro h hc hr
    simp only [detectUnitConversion]
    rw [hc]
    dsimp only
    rw [hr]
  · intro hc hmean
    simp only [detectUnitConversion]
    rcases hcv : conversionHeuristics ct with _ | heuristic
    · rfl
    · dsimp only
      rcases hr : heuristic.ratio with _ | expectedRatio
      · rfl
      · simp [hmean]
  · intro h er hc hr hmean
    have her : er ≠ 0 := table_ratio_ne_zero hc hr
    simp only [detectUnitConversion]
    rw [hc]
    dsimp only
    rw [hr]
    dsimp only
    rw [if_neg her, if_neg hmean]
    refine ⟨?_, ?_, ?_⟩
    · intro hfwd
      rw [if_pos hfwd]
      refine ⟨rfl, rfl, _, rfl, ?_⟩
      simp only [textStartsWith, String.data_append]
      exact ((((List.prefix_refl _).trans (List.prefix_append _ _)).trans
        (List.prefix_append _ _)).trans (List.prefix_append _ _)).trans
        (List.prefix_append _ _)
    · intro hfwd hinv
      rw [if_neg hfwd, if_pos hinv]
      refine ⟨rfl, rfl, _, rfl, ?_⟩
      simp only [textStartsWith, String.data_append]
      exact ((((List.prefix_refl _).trans (List.prefix_append _ _)).trans
        (List.prefix_append _ _)).trans (List.prefix_append _ _)).trans
        (List.prefix_append _ _)
    · intro hfwd hinv
      rw [if_neg hfwd, if_neg hinv]

/-- Witness for C3: `baseline.mean = 1`, `current.mean = 83` under
`currency_usd_to_inr` matches the expected ratio 83 exactly and fires
forward with confidence 90. -/
theorem detectUnitConversion_spec_witness :
    (detectUnitConversion "currency_usd_to_inr" (constSummary 1) (constSummary 83)).detected
      = true ∧
    (detectUnitConversion "currency_usd_to_inr" (constSummary 1) (constSummary 83)).confidence
      = 90 ∧
    ∃ s, (detectUnitConversion "currency_usd_to_inr" (constSummary 1)
        (constSummary 83)).anomaly = some s ∧
      textStartsWith "Possible " s :=
  ((detectUnitConversion_spec "currency_usd_to_inr" (constSummary 1) (constSummary 83)).2.2.2
    { ratio := some 83.0, offset := none, tolerance := 0.15,
      description := "USD to INR conversion" }
    83.0 rfl rfl (by norm_num [constSummary])).1
    (by norm_num [constSummary])

/-- A list cannot be a prefix of `L ++ x` when it disagrees with `L` on
their overlap. -/
theorem not_prefix_append_of_take_ne {p L : List Char}
    (h : p.take (min p.length L.length) ≠ L.take (min p.length L.length))
    (x : List Char) : ¬ p <+: L ++ x := by
  intro hcon
  apply h
  have hp := List.prefix_iff_eq_take.mp hcon
  calc p.take (min p.length L.length)
      = ((L ++ x).take p.length).take (min p.length L.length) := by rw [← hp]
    _ = (L ++ x).take (min (min p.length L.length) p.length) := List.take_take ..
    _ = (L ++ x).take (min p.length L.length) := by
        rw [Nat.min_eq_left (Nat.min_le_left _ _)]
    _ = L.take (min p.length L.length) := List.take_append_of_le_length (Nat.min_le_right _ _)

/-- No anomaly the magnitude detector pushes starts with
"Distribution". -/
theorem detectMagnitudeShift_no_distribution (b c : StatisticalSummary) :
    ∀ s, (detectMagnitudeShift b c).anomaly = some s →
      ¬ textStartsWith "Distribution" s := by
  intro s hs
  simp only [detectMagnitudeShift, String.append_assoc] at hs
  repeat' split at hs
  all_goals
    first
      | exact Option.noConfusion hs
      | (dsimp only at hs
         simp only [Option.some.injEq] at hs
         subst hs
         simp only [textStartsWith, String.data_append]
         exact not_prefix_append_of_take_ne (by decide) _)

/-- No anomaly the unit-conversion detector pushes starts with
"Distribution". -/
theorem detectUnitConversion_no_distribution (ct : String) (b c : StatisticalSummary) :
    ∀ s, (detectUnitConversion ct b c).anomaly = some s →
      ¬ textStartsWith "Distribution" s := by
  intro s hs
  simp only [detectUnitConversion, String.append_assoc] at hs
  repeat' split at hs
  all_goals
    first
      | exact Option.noConfusion hs
      | (dsimp only at hs
         simp only [Option.some.injEq] at hs
         subst hs
         simp only [textStartsWith, String.data_append]
         exact not_prefix_append_of_take_ne (by decide) _)

/-- No anomaly the range detector pushes starts with "Distribution". -/
theorem detectRangeAnomaly_no_distribution (b c : StatisticalSummary) :
    ∀ s, (detectRangeAnomaly b c).anomaly = some s →
      ¬ textStartsWith "Distribution" s := by
  intro s hs
  simp only [detectRangeAnomaly, String.append_assoc] at hs
  repeat' split at hs
  all_goals
    first
      | exact Option.noConfusion hs
      | (dsimp only at hs
         simp only [Option.some.injEq] at hs
         subst hs
         simp only [textStartsWith, String.data_append]
         exact not_prefix_append_of_take_ne (by decide) _)

/-- The count of "Distribution"-prefixed strings contributed by a
sub-detector that never produces one is zero. -/
theorem countP_distribution_toList_zero (o : Option String)
    (h : ∀ s, o = some s → ¬ textStartsWith "Distribution" s) :
    o.toList.countP (fun s => decide (textStartsWith "Distribution" s)) = 0 := by
  cases o with
  | none => rfl
  | some s =>
    simp [List.countP_cons, h s rfl]

/-- Any single sub-detector contributes at most one anomaly string. -/
theorem countP_toList_le_one (o : Option String) (p : String → Bool) :
    o.toList.countP p ≤ 1 := by
  cases o with
  | none => exact Nat.zero_le 1
  | some s =>
    simp only [Option.toList_some, List.countP_cons, List.countP_nil]
    split <;> omega

/-- C4: in any single `analyze` call at most one "Distribution…" anomaly
is recorded (first conjunct, over the whole result list).  When both
coefficients of variation are defined (nonzero means) and the CV ratio
is defined and lies outside `[0.5, 2.0]`, the distribution detector
returns the variability anomaly with confidence 60 — the skew comparison
is never evaluated because the source returns immediately; only when the
CV branch does not fire does control reach the median/mean skew check,
which fires with confidence 55 exactly when the absolute shift exceeds
`0.2`.  A CV-shift anomaly and a skew-shift anomaly can therefore never
both be recorded in one call. -/
theorem detectDistributionShift_spec (st : DetectorState) (b c : StatisticalSummary) :
    ((analyze st b c).2.anomalies.countP
        (fun s => decide (textStartsWith "Distribution" s)) ≤ 1) ∧
    (b.mean ≠ 0 → c.mean ≠ 0 → b.std_dev / b.mean ≠ 0 →
      ((c.std_dev / c.mean) / (b.std_dev / b.mean) > 2.0 ∨
       (c.std_dev / c.mean) / (b.std_dev / b.mean) < 0.5) →
      (detectDistributionShift b c).detected = true ∧
      (detectDistributionShift b c).confidence = 60 ∧
      ∃ s, (detectDistributionShift b c).anomaly = some s ∧
        textStartsWith "Distribution variability" s) ∧
    (b.mean ≠ 0 → c.mean ≠ 0 → b.std_dev / b.mean ≠ 0 →
      ¬((c.std_dev / c.mean) / (b.std_dev / b.mean) > 2.0 ∨
        (c.std_dev / c.mean) / (b.std_dev / b.mean) < 0.5) →
      detectDistributionShift b c = medianShiftCheck b c) ∧
    (|c.median / c.mean - b.median / b.mean| > 0.2 →
      (medianShiftCheck b c).detected = true ∧
      (medianShiftCheck b c).confidence = 55 ∧
      ∃ s, (medianShiftCheck b c).anomaly = some s ∧
        textStartsWith "Distribution skew changed" s) ∧
    (¬ |c.median / c.mean - b.median / b.mean| > 0.2 →
      medianShiftCheck b c = notDetected) := by
  refine ⟨?_, ?_, ?_, ?_, ?_⟩
  · have e1 := countP_distribution_toList_zero (detectMagnitudeShift b c).anomaly
      (detectMagnitudeShift_no_distribution b c)
    have e2 := countP_distribution_toList_zero
      (detectUnitConversion st.comparisonType b c).anomaly
      (detectUnitConversion_no_distribution st.comparisonType b c)
    have e3 := countP_toList_le_one (detectDistributionShift b c).anomaly
      (fun s => decide (textStartsWith "Distribution" s))
    have e4 := countP_distribution_toList_zero (detectRangeAnomaly b c).anomaly
      (detectRangeAnomaly_no_distribution b c)
    simp only [analyze, List.nil_append, List.countP_append]
    omega
  · intro h1 h2 h3 h4
    simp only [detectDistributionShift]
    rw [if_neg (by tauto : ¬(b.mean = 0 ∨ c.mean = 0)), if_neg h3, if_pos h4]
    refine ⟨rfl, rfl, _, rfl, ?_⟩
    have base : "Distribution variability".data <+: "Distribution variability ".data := by
      decide
    simp only [textStartsWith, String.data_append]
    exact (((base.trans (List.prefix_append _ _)).trans (List.prefix_append _ _)).trans
      (List.prefix_append _ _)).trans (List.prefix_append _ _)
  · intro h1 h2 h3 h4
    simp only [detectDistributionShift]
    rw [if_neg (by tauto : ¬(b.mean = 0 ∨ c.mean = 0)), if_neg h3, if_neg h4]
  · intro h
    simp only [medianShiftCheck]
    rw [if_pos h]
    refine ⟨rfl, rfl, _, rfl, ?_⟩
    have base : "Distribution skew changed".data <+:
        "Distribution skew changed: median/mean ratio shifted by ".data := by decide
    simp only [textStartsWith, String.data_append]
    exact (base.trans (List.prefix_append _ _)).trans (List.prefix_append _ _)
  · intro h
    simp only [medianShiftCheck]
    rw [if_neg h]

/-- Witness for C4: CV ratio 3 fires the variability branch with
confidence 60. -/
theorem detectDistributionShift_spec_witness :
    (detectDistributionShift cvBaseline cvCurrent).detected = true ∧
    (detectDistributionShift cvBaseline cvCurrent).confidence = 60 ∧
    ∃ s, (detectDistributionShift cvBaseline cvCurrent).anomaly = some s ∧
      textStartsWith "Distribution variability" s :=
  (detectDistributionShift_spec ⟨"x", [], 0⟩ cvBaseline cvCurrent).2.1
    (by norm_num [cvBaseline]) (by norm_num [cvCurrent])
    (by norm_num [cvBaseline]) (by norm_num [cvBaseline, cvCurrent])

/-- Case analysis: the magnitude detector either abstains with the
literal `notDetected` value or fires with an anomaly and confidence 70
or 95. -/
theorem detectMagnitudeShift_alt (b c : StatisticalSummary) :
    detectMagnitudeShift b c = notDetected ∨
    ((detectMagnitudeShift b c).detected = true ∧
     (detectMagnitudeShift b c).anomaly.isSome = true ∧
     ((detectMagnitudeShift b c).confidence = 70 ∨
      (detectMagnitudeShift b c).confidence = 95)) := by
  simp only [detectMagnitudeShift]
  repeat' split
  all_goals norm_num [notDetected]

/-- Case analysis: the unit-conversion detector abstains or fires with
an anomaly and confidence 90. -/
theorem detectUnitConversion_alt (ct : String) (b c : StatisticalSummary) :
    detectUnitConversion ct b c = notDetected ∨
    ((detectUnitConversion ct b c).detected = true ∧
     (detectUnitConversion ct b c).anomaly.isSome = true ∧
     (detectUnitConversion ct b c).confidence = 90) := by
  simp only [detectUnitConversion]
  repeat' split
  all_goals norm_num [notDetected]

/-- Case analysis: the distribution detector abstains or fires with an
anomaly and confidence 55 or 60. -/
theorem detectDistributionShift_alt (b c : StatisticalSummary) :
    detectDistributionShift b c = notDetected ∨
    ((detectDistributionShift b c).detected = true ∧
     (detectDistributionShift b c).anomaly.isSome = true ∧
     ((detectDistributionShift b c).confidence = 55 ∨
      (detectDistributionShift b c).confidence = 60)) := by
  simp only [detectDistributionShift, medianShiftCheck]
  repeat' split
  all_goals norm_num [notDetected]

/-- Case analysis: the range detector abstains or fires with an anomaly
and confidence 65. -/
theorem detectRangeAnomaly_alt (b c : StatisticalSummary) :
    detectRangeAnomaly b c = notDetected ∨
    ((detectRangeAnomaly b c).detected = true ∧
     (detectRangeAnomaly b c).anomaly.isSome = true ∧
     (detectRangeAnomaly b c).confidence = 65) := by
  simp only [detectRangeAnomaly]
  repeat' split
  all_goals norm_num [notDetected]

/-- A sub-detector that abstains with `notDetected` or fires with an
anomaly contributes as many confidence scores as anomaly strings. -/
theorem contrib_length (r : SubResult)
    (h : r = notDetected ∨ (r.detected = true ∧ r.anomaly.isSome = true)) :
    (if r.detected = true then [r.confidence] else []).length = r.anomaly.toList.length := by
  rcases h with rfl | ⟨hd, hs⟩
  · simp [notDetected]
  · rcases Option.isSome_iff_exists.mp hs with ⟨s, hx⟩
    simp [hd, hx]

/-- Membership in a sub-detector's score contribution forces firing and
pins the value. -/
theorem mem_if_singleton {r : SubResult} {x : ℚ}
    (hx : x ∈ (if r.detected = true then [r.confidence] else [])) :
    r.detected = true ∧ x = r.confidence := by
  split at hx
  · next hd => exact ⟨hd, by simpa using hx⟩
  · simp at hx

/-- The `foldl max` accumulator never decreases. -/
theorem le_foldl_max (xs : List ℚ) (a : ℚ) : a ≤ xs.foldl max a := by
  induction xs generalizing a with
  | nil => exact le_refl a
  | cons y ys ih => exact le_trans (le_max_left a y) (ih (max a y))

/-- `foldl max` stays below any common upper bound. -/
theorem foldl_max_le {u : ℚ} (xs : List ℚ) (a : ℚ) (ha : a ≤ u)
    (h : ∀ x ∈ xs, x ≤ u) : xs.foldl max a ≤ u := by
  induction xs generalizing a with
  | nil => exact ha
  | cons y ys ih =>
    exact ih (max a y) (max_le ha (h y (by simp)))
      (fun x hx => h x (List.mem_cons_of_mem y hx))

/-- Aggregating scores that all lie in `[55, 95]` yields `0` on no
signal and a value in `[55, 100]` otherwise. -/
theorem specAggregate_bounds (S : List ℚ) (h : ∀ x ∈ S, 55 ≤ x ∧ x ≤ 95) :
    (S = [] → specAggregate S = 0) ∧
    (S ≠ [] → 55 ≤ specAggregate S ∧ specAggregate S ≤ 100) := by
  match S with
  | [] => exact ⟨fun _ => rfl, fun hne => absurd rfl hne⟩
  | [x] =>
    refine ⟨fun hx => absurd hx (by simp), fun _ => ?_⟩
    have hx := h x (by simp)
    simp only [specAggregate]
    exact ⟨hx.1, le_trans hx.2 (by norm_num)⟩
  | x :: y :: rest =>
    refine ⟨fun hx => absurd hx (by simp), fun _ => ?_⟩
    have hx := h x (by simp)
    have hub : listMax (x :: y :: rest) ≤ 95 := by
      simp only [listMax]
      exact foldl_max_le _ _ hx.2 (fun z hz => (h z (List.mem_cons_of_mem x hz)).2)
    have hlb : (55 : ℚ) ≤ listMax (x :: y :: rest) := by
      simp only [listMax]
      exact le_trans hx.1 (le_foldl_max _ _)
    simp only [specAggregate]
    constructor
    · refine le_min ?_ (by norm_num)
      have hboost : (5 : ℚ) ≤ min ((((x :: y :: rest).length : ℚ) - 1) * 5) 15 := by
        refine le_min ?_ (by norm_num)
        have h2 : (2 : ℚ) ≤ ((x :: y :: rest).length : ℚ) := by
          have : 2 ≤ (x :: y :: rest).length := by simp
          exact_mod_cast this
        linarith
      linarith
    · exact min_le_right _ _

/-- C10: the result of `analyze` has `detected = true` exactly when its
confidence is at least 55; the confidence is never strictly between 0
and 55 (each firing sub-detector contributes a confidence from
`{55, 60, 65, 70, 90, 95}` together with exactly one anomaly string), and
the confidence is 0 exactly when the anomaly list is empty. -/
theorem analyze_detected_iff_confidence (st : DetectorState) (b c : StatisticalSummary) :
    ((analyze st b c).2.detected = true ↔ 55 ≤ (analyze st b c).2.confidence) ∧
    ((analyze st b c).2.confidence = 0 ∨ 55 ≤ (analyze st b c).2.confidence) ∧
    ((analyze st b c).2.confidence = 0 ↔ (analyze st b c).2.anomalies = []) ∧
    (∀ x ∈ firedConfidences st.comparisonType b c,
      x = 55 ∨ x = 60 ∨ x = 65 ∨ x = 70 ∨ x = 90 ∨ x = 95) := by
  have hmem : ∀ x ∈ firedConfidences st.comparisonType b c,
      x = 55 ∨ x = 60 ∨ x = 65 ∨ x = 70 ∨ x = 90 ∨ x = 95 := by
    intro x hx
    simp only [firedConfidences, List.mem_append] at hx
    rcases hx with ((hx | hx) | hx) | hx
    · obtain ⟨hd, rfl⟩ := mem_if_singleton hx
      rcases detectMagnitudeShift_alt b c with he | ⟨_, _, h70 | h95⟩
      · rw [he] at hd
        exact absurd hd (by norm_num [notDetected])
      · exact Or.inr (Or.inr (Or.inr (Or.inl h70)))
      · exact Or.inr (Or.inr (Or.inr (Or.inr (Or.inr h95))))
    · obtain ⟨hd, rfl⟩ := mem_if_singleton hx
      rcases detectUnitConversion_alt st.comparisonType b c with he | ⟨_, _, h90⟩
      · rw [he] at hd
        exact absurd hd (by norm_num [notDetected])
      · exact Or.inr (Or.inr (Or.inr (Or.inr (Or.inl h90))))
    · obtain ⟨hd, rfl⟩ := mem_if_singleton hx
      rcases detectDistributionShift_alt b c with he | ⟨_, _, h55 | h60⟩
      · rw [he] at hd
        exact absurd hd (by norm_num [notDetected])
      · exact Or.inl h55
      · exact Or.inr (Or.inl h60)
    · obtain ⟨hd, rfl⟩ := mem_if_singleton hx
      rcases detectRangeAnomaly_alt b c with he | ⟨_, _, h65⟩
      · rw [he] at hd
        exact absurd hd (by norm_num [notDetected])
      · exact Or.inr (Or.inr (Or.inl h65))
  have hbounds : ∀ x ∈ firedConfidences st.comparisonType b c, 55 ≤ x ∧ x ≤ 95 := by
    intro x hx
    rcases hmem x hx with rfl | rfl | rfl | rfl | rfl | rfl <;> norm_num
  have hagg := specAggregate_bounds _ hbounds
  have hconf : (analyze st b c).2.confidence =
      specAggregate (firedConfidences st.comparisonType b c) := by
    simp only [analyze, firedConfidences]
    exact length_branches_eq_specAggregate _
  have hlen : (analyze st b c).2.anomalies.length =
      (firedConfidences st.comparisonType b c).length := by
    have e1 := contrib_length (detectMagnitudeShift b c)
      ((detectMagnitudeShift_alt b c).imp id (fun hh => ⟨hh.1, hh.2.1⟩))
    have e2 := contrib_length (detectUnitConversion st.comparisonType b c)
      ((detectUnitConversion_alt st.comparisonType b c).imp id (fun hh => ⟨hh.1, hh.2.1⟩))
    have e3 := contrib_length (detectDistributionShift b c)
      ((detectDistributionShift_alt b c).imp id (fun hh => ⟨hh.1, hh.2.1⟩))
    have e4 := contrib_length (detectRangeAnomaly b c)
      ((detectRangeAnomaly_alt b c).imp id (fun hh => ⟨hh.1, hh.2.1⟩))
    simp only [analyze, firedConfidences, List.nil_append, List.length_append]
    omega
  have hdet : (analyze st b c).2.detected =
      decide (0 < (analyze st b c).2.anomalies.length) := rfl
  refine ⟨?_, ?_, ?_, hmem⟩
  · rw [hdet, hconf]
    by_cases hS : firedConfidences st.comparisonType b c = []
    · have hlen0 : (analyze st b c).2.anomalies.length = 0 := by
        rw [hlen, hS]
        rfl
      rw [hlen0, hagg.1 hS]
      norm_num
    · have h55 := (hagg.2 hS).1
      have hlenpos : 0 < (analyze st b c).2.anomalies.length := by
        rw [hlen]
        exact List.length_pos.mpr hS
      simp [hlenpos, h55]
  · rw [hconf]
    by_cases hS : firedConfidences st.comparisonType b c = []
    · exact Or.inl (hagg.1 hS)
    · exact Or.inr (hagg.2 hS).1
  · rw [hconf]
    by_cases hS : firedConfidences st.comparisonType b c = []
    · have hlen0 : (analyze st b c).2.anomalies.length = 0 := by
        rw [hlen, hS]
        rfl
      have : (analyze st b c).2.anomalies = [] := List.length_eq_zero.mp hlen0
      simp [this, hagg.1 hS]
    · have h55 := (hagg.2 hS).1
      have hne : (analyze st b c).2.anomalies ≠ [] := by
        intro hnil
        apply hS
        have : (analyze st b c).2.anomalies.length = 0 := by rw [hnil]; rfl
        exact List.length_eq_zero.mp (by omega)
      constructor
      · intro h0
        exact absurd h0 (by linarith)
      · intro hnil
        exact absurd hnil hne
